import Mathlib

/-
Verification of the harmonic-oscillator repository against its specification.

The repository has three Python modules:
  oscillator_solver.py : solve_damped_oscillator builds a uniform time grid
    with np.linspace and hands it to the external adaptive integrator
    scipy.integrate.solve_ivp, returning (sol.t, sol.y[0], sol.y[1]).
  laplace_analysis.py : calculate_laplace_transform builds the transfer
    function H(s) = 1 / (m s^2 + c s + k), computes poles and zeros with
    np.roots, samples a logarithmic frequency sweep with np.logspace,
    evaluates the Bode magnitude and phase with scipy.signal.bode, and adds
    the constant 20 log10(F0 omega) to every magnitude sample.
  app.py : the presentation layer; the only logic modelled here is the
    stability classification derived from the pole real parts.

Numbers are modelled exactly: the solver-side grid over the rationals, the
analysis side over the reals.  The exception channel of Python is made
explicit as an Except result.  Neither source function contains a raise or
any parameter validation, so the analysis embedding produces Except.ok
unconditionally; the solver embedding additionally models the one failure
path the scipy call chain has: when the adaptive step controller rejects
every step (as happens for m = 0, where the ODE right-hand side divides by
zero), solve_ivp returns with empty t and y arrays and the subsequent
sol.y[0] access on line 67 of oscillator_solver.py raises IndexError.  That
downstream runtime failure is the error branch of the embedding; it is
never an InvalidParameter.
-/

/-- Error kinds for the trajectory solver: the two named by the
specification (InvalidParameter and NumericalFailure, neither of which the
source ever raises, since it has no validation and no explicit error
signalling) plus the runtime failure the scipy call chain can actually
produce: with zero accepted steps the integrator result is empty and the
sol.y[0] access in the source raises IndexError. -/
inductive SolverError
  | InvalidParameter
  | NumericalFailure
  | RuntimeFailure
deriving DecidableEq

/-- Error kind named by the specification for the frequency analyzer.
The source of calculate_laplace_transform never raises it. -/
inductive AnalysisError
  | InvalidParameter
deriving DecidableEq

/-- np.linspace a b n : n points from a to b inclusive, uniformly spaced.
For n at least 2 the step is (b - a)/(n - 1) and the last point is exactly b;
the formula below reproduces this exactly over the rationals. -/
def np_linspace (a b : ℚ) (n : ℕ) : List ℚ :=
  (List.range n).map (fun (i : ℕ) => a + (i : ℚ) * (b - a) / ((n : ℚ) - 1))

/-- One scipy.integrate.solve_ivp result as the repository consumes it:
the success flag sol.success, the realised output grid sol.t, and the two
state rows sol.y[0] (position) and sol.y[1] (velocity). -/
structure IVPOutcome where
  success : Bool
  t : List ℚ
  x : List ℚ
  v : List ℚ

/-- Abstract interface for the external integrator scipy.integrate.solve_ivp
as called by solve_damped_oscillator: given the five physical parameters,
the initial state, the span endpoint t_max and the evaluation grid t_eval,
it returns an IVPOutcome.  The numerical content of the adaptive
Runge-Kutta integration is external to the repository and stays abstract;
only the documented contracts are recorded:
  run_t_of_success: on success the stored grid sol.t is exactly the
    requested t_eval (every requested point lies in the span [0, t_max]);
    on failure sol.t is a truncated, possibly empty, prefix grid, about
    which nothing is assumed;
  run_x_length, run_v_length: sol.y always has one column per entry of
    sol.t, whether or not integration ran to completion;
  run_success_of_valid: for valid physical parameters (m > 0, k > 0,
    c at least 0, t_max > 0) the damped-oscillator ODE is well posed and the
    integration completes -- the assumption the specification itself
    stipulates for the valid range (convergence failures are assumed not to
    occur there);
  run_success_of_zero_span: for t_max = 0 (and an evaluable right-hand
    side, m nonzero) the span [0, 0] is empty, the base OdeSolver.step
    corner case finishes immediately without attempting any step, and
    dense_output returns the constant interpolant, so the call succeeds
    with the all-zero grid. -/
structure IVPSolver where
  run : ℚ → ℚ → ℚ → ℚ → ℚ → ℚ → ℚ → ℚ → List ℚ → IVPOutcome
  run_t_of_success : ∀ m c k F0 omega x0 v0 t_max t_eval,
    (run m c k F0 omega x0 v0 t_max t_eval).success = true →
    (run m c k F0 omega x0 v0 t_max t_eval).t = t_eval
  run_x_length : ∀ m c k F0 omega x0 v0 t_max t_eval,
    (run m c k F0 omega x0 v0 t_max t_eval).x.length =
      (run m c k F0 omega x0 v0 t_max t_eval).t.length
  run_v_length : ∀ m c k F0 omega x0 v0 t_max t_eval,
    (run m c k F0 omega x0 v0 t_max t_eval).v.length =
      (run m c k F0 omega x0 v0 t_max t_eval).t.length
  run_success_of_valid : ∀ m c k F0 omega x0 v0 t_max t_eval,
    0 < m → 0 < k → 0 ≤ c → 0 < t_max →
    (run m c k F0 omega x0 v0 t_max t_eval).success = true
  run_success_of_zero_span : ∀ m c k F0 omega x0 v0 t_max t_eval,
    m ≠ 0 → t_max = 0 →
    (run m c k F0 omega x0 v0 t_max t_eval).success = true

/-- A trivial instance of the integrator interface (always succeeding with
identically zero state output), used to instantiate theorems about the
solver at concrete inputs. -/
def trivialIVP : IVPSolver :=
  ⟨fun _ _ _ _ _ _ _ _ t_eval =>
      ⟨true, t_eval, t_eval.map (fun _ => 0), t_eval.map (fun _ => 0)⟩,
   fun _ _ _ _ _ _ _ _ _ _ => rfl,
   fun _ _ _ _ _ _ _ _ _ => by simp,
   fun _ _ _ _ _ _ _ _ _ => by simp,
   fun _ _ _ _ _ _ _ _ _ _ _ _ _ => rfl,
   fun _ _ _ _ _ _ _ _ _ _ _ => rfl⟩

/-- Transcription of solve_damped_oscillator from oscillator_solver.py:
  t_eval = np.linspace(0, t_max, num_points)
  sol = solve_ivp(damped_oscillator_ode, [0, t_max], [x0, v0], ...,
                  t_eval=t_eval, ...)
  return sol.t, sol.y[0], sol.y[1]
The function body contains no parameter check and no raise statement of its
own: whenever the integrator result is non-empty the triple is returned,
which the Except layer records as Except.ok.  When the integrator rejects
every step the result arrays are empty, and the sol.y[0] access raises
IndexError -- the error branch of the embedding (a downstream runtime
failure, never an InvalidParameter). -/
def solve_damped_oscillator (ivp : IVPSolver)
    (m c k F0 omega x0 v0 t_max : ℚ) (num_points : ℕ) :
    Except SolverError (List ℚ × List ℚ × List ℚ) :=
  let t_eval := np_linspace 0 t_max num_points
  let sol := ivp.run m c k F0 omega x0 v0 t_max t_eval
  if sol.x.isEmpty then Except.error SolverError.RuntimeFailure
  else Except.ok (sol.t, sol.x, sol.v)

noncomputable section

open scoped Classical

/-- Transcription of damped_oscillator_ode from oscillator_solver.py: the
first-order system for the state (x, v), with
  dxdt = v and dvdt = (F0 sin(omega t) - c v - k x) / m. -/
def damped_oscillator_ode (t : ℝ) (y : ℝ × ℝ) (m c k F0 omega : ℝ) : ℝ × ℝ :=
  (y.2, (F0 * Real.sin (omega * t) - c * y.2 - k * y.1) / m)

/-- The two roots, as (real, imaginary) pairs, of the quadratic
a s^2 + b s + c with a nonzero, as np.roots returns them for a degree-two
coefficient list: real pair for a non-negative discriminant, a complex
conjugate pair otherwise. -/
def rootsQuadratic (a b c : ℝ) : List (ℝ × ℝ) :=
  if 0 ≤ b ^ 2 - 4 * a * c then
    [((-b + Real.sqrt (b ^ 2 - 4 * a * c)) / (2 * a), 0),
     ((-b - Real.sqrt (b ^ 2 - 4 * a * c)) / (2 * a), 0)]
  else
    [(-b / (2 * a), Real.sqrt (4 * a * c - b ^ 2) / (2 * a)),
     (-b / (2 * a), -(Real.sqrt (4 * a * c - b ^ 2) / (2 * a)))]

/-- np.roots on a coefficient list (highest degree first): leading zeros are
stripped, then the roots of the remaining polynomial are returned, as
(real, imaginary) pairs.  Modelled for degree at most two, which covers both
call sites in laplace_analysis.py: np.roots([m, c, k]) and np.roots([1]). -/
def np_roots : List ℝ → List (ℝ × ℝ)
  | [] => []
  | [_] => []
  | [a, b] => if a = 0 then [] else [(-b / a, 0)]
  | [a, b, c] => if a = 0 then np_roots [b, c] else rootsQuadratic a b c
  | _ => []

/-- np.linspace over the reals (used by np.logspace for the exponent grid). -/
def np_linspaceR (a b : ℝ) (n : ℕ) : List ℝ :=
  (List.range n).map (fun (i : ℕ) => a + (i : ℝ) * (b - a) / ((n : ℝ) - 1))

/-- np.logspace a b n : n points 10^e for e uniformly spaced from a to b. -/
def np_logspace (a b : ℝ) (n : ℕ) : List ℝ :=
  (np_linspaceR a b n).map (fun e => (10 : ℝ) ^ e)

/-- np.log10 on non-negative input, valued in the extended reals:
log10 of a positive number is its real base-10 logarithm, and np.log10(0)
evaluates to -infinity (numpy emits a warning, not an exception).  Negative
input (NaN in numpy) does not arise at the call site, where the argument is
F0 * omega with F0 non-negative. -/
def np_log10 (x : ℝ) : EReal :=
  if 0 < x then ((Real.logb 10 x : ℝ) : EReal) else ⊥

/-- The homogeneous Bode magnitude in decibels of H(s) = 1/(m s^2 + c s + k)
at angular frequency w, as scipy.signal.bode evaluates it:
|H(jw)| = 1 / sqrt((k - m w^2)^2 + (c w)^2), converted to 20 log10. -/
def bodeMagnitude (m c k w : ℝ) : ℝ :=
  20 * Real.logb 10 (1 / Real.sqrt ((k - m * w ^ 2) ^ 2 + (c * w) ^ 2))

/-- The Bode phase in degrees of H(s) = 1/(m s^2 + c s + k) at angular
frequency w: the argument of H(jw) = 1/((k - m w^2) + j c w). -/
def bodePhase (m c k w : ℝ) : ℝ :=
  -(((k - m * w ^ 2 : ℝ) + (c * w : ℝ) * Complex.I).arg) * 180 / Real.pi

/-- The record returned by calculate_laplace_transform: frequency sweep,
magnitude in decibels (extended-real, since np.log10(0) is -infinity), phase
in degrees, poles and zeros as (real, imaginary) pairs. -/
structure TransferFunctionResult where
  frequencies : List ℝ
  magnitude : List EReal
  phase : List ℝ
  poles : List (ℝ × ℝ)
  zeros : List (ℝ × ℝ)

/-- Transcription of the body of calculate_laplace_transform from
laplace_analysis.py:
  numerator = [1]; denominator = [m, c, k]
  poles = np.roots(denominator); zeros = np.roots(numerator)
  frequencies = np.logspace(-2, np.log10(max_freq), num_points)
  w, mag, phase = signal.bode(sys, w=frequencies)
  forced_magnitude = mag + 20 * np.log10(F0 * omega)
  return w, forced_magnitude, phase, poles, zeros -/
def calculate_laplace_transform_result
    (m c k F0 omega max_freq : ℝ) (num_points : ℕ) : TransferFunctionResult :=
  let denominator := [m, c, k]
  let numerator := [(1 : ℝ)]
  let poles := np_roots denominator
  let zeros := np_roots numerator
  let frequencies := np_logspace (-2) (Real.logb 10 max_freq) num_points
  let mag := frequencies.map (fun w => bodeMagnitude m c k w)
  let phase := frequencies.map (fun w => bodePhase m c k w)
  let forced_magnitude :=
    mag.map (fun (md : ℝ) => (md : EReal) + (20 : EReal) * np_log10 (F0 * omega))
  ⟨frequencies, forced_magnitude, phase, poles, zeros⟩

/-- calculate_laplace_transform with the Python exception channel explicit:
the source contains no parameter check and no raise statement, so the result
is unconditionally Except.ok of the computed record. -/
def calculate_laplace_transform
    (m c k F0 omega max_freq : ℝ) (num_points : ℕ) :
    Except AnalysisError TransferFunctionResult :=
  Except.ok (calculate_laplace_transform_result m c k F0 omega max_freq num_points)

/-- The three stability labels displayed by app.py. -/
inductive Stability
  | STABLE
  | MARGINALLY_STABLE
  | UNSTABLE
deriving DecidableEq

/-- Transcription of the classification in app.py:
  system_status = "STABLE" if np.all(real_parts < 0) else
                  "MARGINALLY STABLE" if np.any(real_parts == 0) else
                  "UNSTABLE" -/
def system_status (real_parts : List ℝ) : Stability :=
  if ∀ r ∈ real_parts, r < 0 then Stability.STABLE
  else if ∃ r ∈ real_parts, r = 0 then Stability.MARGINALLY_STABLE
  else Stability.UNSTABLE

/-- Evaluation of the polynomial m s^2 + c s + k at the complex point
s = p.1 + i p.2, returned as the (real, imaginary) pair of the value.
Used to state that the computed poles are roots of the denominator. -/
def polyEval2 (m c k : ℝ) (p : ℝ × ℝ) : ℝ × ℝ :=
  (m * (p.1 ^ 2 - p.2 ^ 2) + c * p.1 + k, m * (2 * p.1 * p.2) + c * p.2)

end

theorem np_linspace_length (a b : ℚ) (n : ℕ) : (np_linspace a b n).length = n := by
  rw [np_linspace, List.length_map, List.length_range]

theorem np_linspace_getElem (a b : ℚ) (n i : ℕ) (h : i < (np_linspace a b n).length) :
    (np_linspace a b n)[i] = a + (i : ℚ) * (b - a) / ((n : ℚ) - 1) := by
  simp [np_linspace]

theorem np_linspace_pairwise (a b : ℚ) (n : ℕ) (hab : a < b) (hn : 2 ≤ n) :
    (np_linspace a b n).Pairwise (· < ·) := by
  unfold np_linspace
  rw [List.pairwise_map]
  refine (List.pairwise_lt_range n).imp ?_
  intro i j hij
  have hden : (0 : ℚ) < (n : ℚ) - 1 := by
    have h2 : (2 : ℚ) ≤ (n : ℚ) := by exact_mod_cast hn
    linarith
  have hcast : (i : ℚ) < (j : ℚ) := by exact_mod_cast hij
  have hba : (0 : ℚ) < b - a := by linarith
  have key : (i : ℚ) * (b - a) / ((n : ℚ) - 1) < (j : ℚ) * (b - a) / ((n : ℚ) - 1) := by
    gcongr
  linarith

theorem system_status_stable_iff (l : List ℝ) :
    system_status l = Stability.STABLE ↔ ∀ r ∈ l, r < 0 := by
  unfold system_status
  by_cases h1 : ∀ r ∈ l, r < 0
  · rw [if_pos h1]
    exact iff_of_true rfl h1
  · rw [if_neg h1]
    by_cases h2 : ∃ r ∈ l, r = 0
    · rw [if_pos h2]
      exact iff_of_false (by simp) h1
    · rw [if_neg h2]
      exact iff_of_false (by simp) h1

theorem system_status_marginal_iff (l : List ℝ) :
    system_status l = Stability.MARGINALLY_STABLE ↔
      (¬ (∀ r ∈ l, r < 0)) ∧ (∃ r ∈ l, r = 0) := by
  unfold system_status
  by_cases h1 : ∀ r ∈ l, r < 0
  · rw [if_pos h1]
    exact iff_of_false (by simp) (fun h => h.1 h1)
  · rw [if_neg h1]
    by_cases h2 : ∃ r ∈ l, r = 0
    · rw [if_pos h2]
      exact iff_of_true rfl ⟨h1, h2⟩
    · rw [if_neg h2]
      exact iff_of_false (by simp) (fun h => h2 h.2)

theorem system_status_unstable_iff (l : List ℝ) :
    system_status l = Stability.UNSTABLE ↔
      (¬ (∀ r ∈ l, r < 0)) ∧ (¬ (∃ r ∈ l, r = 0)) := by
  unfold system_status
  by_cases h1 : ∀ r ∈ l, r < 0
  · rw [if_pos h1]
    exact iff_of_false (by simp) (fun h => h.1 h1)
  · rw [if_neg h1]
    by_cases h2 : ∃ r ∈ l, r = 0
    · rw [if_pos h2]
      exact iff_of_false (by simp) (fun h => h.2 h2)
    · rw [if_neg h2]
      exact iff_of_true rfl ⟨h1, h2⟩

theorem np_roots_cubic_of_ne (m c k : ℝ) (hm : m ≠ 0) :
    np_roots [m, c, k] = rootsQuadratic m c k := by
  simp [np_roots, hm]

theorem np_roots_one : np_roots [(1 : ℝ)] = [] := rfl

theorem rootsQuadratic_length (a b c : ℝ) : (rootsQuadratic a b c).length = 2 := by
  unfold rootsQuadratic
  split <;> simp

theorem quadRoot_real (m c k s : ℝ) (hm : m ≠ 0) (hs : s ^ 2 = c ^ 2 - 4 * m * k) :
    polyEval2 m c k ((-c + s) / (2 * m), 0) = (0, 0) := by
  simp only [polyEval2, Prod.mk.injEq]
  constructor
  · field_simp
    linear_combination (2 * m ^ 2) * hs
  · ring

theorem quadRoot_complex (m c k t : ℝ) (hm : m ≠ 0) (ht : t ^ 2 = 4 * m * k - c ^ 2) :
    polyEval2 m c k (-c / (2 * m), t / (2 * m)) = (0, 0) := by
  simp only [polyEval2, Prod.mk.injEq]
  constructor
  · field_simp
    linear_combination (-2 * m ^ 2) * ht
  · field_simp
    ring

/-- Claim C3: for valid parameters (m > 0, k > 0, c at least 0, t_max > 0,
num_points at least 2) solve returns three arrays of length exactly
num_points; the time array is strictly ascending, starts at 0, ends at
t_max, and is uniformly spaced with step t_max/(num_points - 1). -/
theorem C3_solve_grid (ivp : IVPSolver) (m c k F0 omega x0 v0 t_max : ℚ) (n : ℕ)
    (hm : 0 < m) (hk : 0 < k) (hc : 0 ≤ c) (ht : 0 < t_max) (hn : 2 ≤ n) :
    solve_damped_oscillator ivp m c k F0 omega x0 v0 t_max n =
      Except.ok (np_linspace 0 t_max n,
        (ivp.run m c k F0 omega x0 v0 t_max (np_linspace 0 t_max n)).x,
        (ivp.run m c k F0 omega x0 v0 t_max (np_linspace 0 t_max n)).v) ∧
    (np_linspace 0 t_max n).length = n ∧
    (ivp.run m c k F0 omega x0 v0 t_max (np_linspace 0 t_max n)).x.length = n ∧
    (ivp.run m c k F0 omega x0 v0 t_max (np_linspace 0 t_max n)).v.length = n ∧
    (np_linspace 0 t_max n).Pairwise (· < ·) ∧
    (∀ h0 : 0 < (np_linspace 0 t_max n).length, (np_linspace 0 t_max n)[0] = 0) ∧
    (∀ hl : n - 1 < (np_linspace 0 t_max n).length,
      (np_linspace 0 t_max n)[n - 1] = t_max) ∧
    (∀ (i : ℕ) (hi : i + 1 < (np_linspace 0 t_max n).length),
      (np_linspace 0 t_max n).get ⟨i + 1, hi⟩ -
        (np_linspace 0 t_max n).get ⟨i, Nat.lt_of_succ_lt hi⟩ =
      t_max / ((n : ℚ) - 1)) := by
  have hden : ((n : ℚ) - 1) ≠ 0 := by
    have h2 : (2 : ℚ) ≤ (n : ℚ) := by exact_mod_cast hn
    linarith
  have hsucc := ivp.run_success_of_valid m c k F0 omega x0 v0 t_max
    (np_linspace 0 t_max n) hm hk hc ht
  have hteq := ivp.run_t_of_success m c k F0 omega x0 v0 t_max
    (np_linspace 0 t_max n) hsucc
  have hxlen : (ivp.run m c k F0 omega x0 v0 t_max
      (np_linspace 0 t_max n)).x.length = n := by
    rw [ivp.run_x_length, hteq, np_linspace_length]
  have hvlen : (ivp.run m c k F0 omega x0 v0 t_max
      (np_linspace 0 t_max n)).v.length = n := by
    rw [ivp.run_v_length, hteq, np_linspace_length]
  have hne : (ivp.run m c k F0 omega x0 v0 t_max
      (np_linspace 0 t_max n)).x.isEmpty = false := by
    rw [List.isEmpty_eq_false]
    intro hnil
    rw [hnil] at hxlen
    simp at hxlen
    omega
  refine ⟨?_, np_linspace_length 0 t_max n, hxlen, hvlen, ?_, ?_, ?_, ?_⟩
  · simp only [solve_damped_oscillator]
    rw [hne]
    simp only [Bool.false_eq_true, if_false]
    rw [hteq]
  · exact np_linspace_pairwise 0 t_max n ht hn
  · intro h0
    rw [np_linspace_getElem]
    simp
  · intro hl
    rw [np_linspace_getElem]
    have hcast : ((n - 1 : ℕ) : ℚ) = (n : ℚ) - 1 := by
      have h1 : 1 ≤ n := by omega
      push_cast [Nat.cast_sub h1]
      ring
    rw [hcast]
    field_simp
  · intro i hi
    rw [List.get_eq_getElem, List.get_eq_getElem, np_linspace_getElem, np_linspace_getElem]
    push_cast
    field_simp
    ring

/-- Claim C3, witness at (m, c, k, t_max, num_points) = (1, 0, 1, 1, 2) with
the trivial integrator instance. -/
theorem C3_solve_grid_witness :
    ((0 : ℚ) < 1) ∧ ((0 : ℚ) ≤ 0) ∧ (2 ≤ 2) ∧
    (np_linspace 0 1 2).Pairwise (· < ·) :=
  ⟨by norm_num, le_refl 0, le_refl 2,
   (C3_solve_grid trivialIVP 1 0 1 0 1 0 0 1 2 (by norm_num) (by norm_num)
      (le_refl 0) (by norm_num) (le_refl 2)).2.2.2.2.1⟩

theorem rootsQuadratic_are_roots (m c k : ℝ) (hm : m ≠ 0) :
    ∀ p ∈ rootsQuadratic m c k, polyEval2 m c k p = (0, 0) := by
  intro p hp
  unfold rootsQuadratic at hp
  split_ifs at hp with hd
  · simp only [List.mem_cons, List.not_mem_nil, or_false] at hp
    rcases hp with hp | hp
    · rw [hp]
      exact quadRoot_real m c k (Real.sqrt (c ^ 2 - 4 * m * k)) hm (Real.sq_sqrt hd)
    · rw [hp]
      have h1 := quadRoot_real m c k (-Real.sqrt (c ^ 2 - 4 * m * k)) hm
        (by rw [neg_sq]; exact Real.sq_sqrt hd)
      have h2 : -c + -Real.sqrt (c ^ 2 - 4 * m * k) = -c - Real.sqrt (c ^ 2 - 4 * m * k) := by
        ring
      rw [h2] at h1
      exact h1
  · have hpos : 0 ≤ 4 * m * k - c ^ 2 := by linarith [lt_of_not_le hd]
    simp only [List.mem_cons, List.not_mem_nil, or_false] at hp
    rcases hp with hp | hp
    · rw [hp]
      exact quadRoot_complex m c k (Real.sqrt (4 * m * k - c ^ 2)) hm (Real.sq_sqrt hpos)
    · rw [hp]
      have h1 := quadRoot_complex m c k (-Real.sqrt (4 * m * k - c ^ 2)) hm
        (by rw [neg_sq]; exact Real.sq_sqrt hpos)
      have h2 : -Real.sqrt (4 * m * k - c ^ 2) / (2 * m) =
          -(Real.sqrt (4 * m * k - c ^ 2) / (2 * m)) := by
        ring
      rw [h2] at h1
      exact h1

/-- Claim C2, counterexample: calling analyze with m = 0 exactly does not
fail with InvalidParameter; root-finding proceeds on the degenerate
denominator [0, 1, 1] and the call returns Except.ok with a single pole,
refuting the claim at (m, c, k, F0, omega, max_freq, num_points) =
(0, 1, 1, 1, 1, 100, 2). -/
theorem C2_counterexample :
    calculate_laplace_transform 0 1 1 1 1 100 2 =
      Except.ok (calculate_laplace_transform_result 0 1 1 1 1 100 2) ∧
    (calculate_laplace_transform_result 0 1 1 1 1 100 2).poles.length = 1 := by
  refine ⟨rfl, ?_⟩
  norm_num [calculate_laplace_transform_result, np_roots]

/-- Claim C2, amended: analyze performs no mass validation.  For m = 0 it
proceeds to root-finding on the degenerate denominator polynomial [0, c, k]
and returns Except.ok; for c nonzero the returned pole list is the single
root -k/c of the stripped linear polynomial, silently changing the pole
count from 2 to 1 instead of raising any error. -/
theorem C2_analyze_accepts_zero_mass (c k F0 omega max_freq : ℝ) (n : ℕ)
    (hc : c ≠ 0) :
    calculate_laplace_transform 0 c k F0 omega max_freq n =
      Except.ok (calculate_laplace_transform_result 0 c k F0 omega max_freq n) ∧
    (calculate_laplace_transform_result 0 c k F0 omega max_freq n).poles =
      [(-k / c, 0)] ∧
    (calculate_laplace_transform_result 0 c k F0 omega max_freq n).poles.length = 1 := by
  have hp : (calculate_laplace_transform_result 0 c k F0 omega max_freq n).poles =
      [(-k / c, 0)] := by
    simp [calculate_laplace_transform_result, np_roots, hc]
  exact ⟨rfl, hp, by rw [hp]; rfl⟩

/-- Claim C2, witness for the amended theorem at c = 1, k = 1. -/
theorem C2_analyze_accepts_zero_mass_witness :
    ((1 : ℝ) ≠ 0) ∧
    (calculate_laplace_transform_result 0 1 1 1 1 100 3).poles = [(-1 / 1, 0)] :=
  ⟨one_ne_zero, (C2_analyze_accepts_zero_mass 1 1 1 1 100 3 one_ne_zero).2.1⟩

/-- Claim C4: for m > 0 (and c at least 0, k > 0) analyze returns exactly two
poles, each a root of the denominator polynomial m s^2 + c s + k evaluated in
complex arithmetic, and an empty zero list. -/
theorem C4_two_poles_no_zeros (m c k F0 omega max_freq : ℝ) (n : ℕ)
    (hm : 0 < m) (hc : 0 ≤ c) (hk : 0 < k) :
    calculate_laplace_transform m c k F0 omega max_freq n =
      Except.ok (calculate_laplace_transform_result m c k F0 omega max_freq n) ∧
    (calculate_laplace_transform_result m c k F0 omega max_freq n).poles.length = 2 ∧
    (∀ p ∈ (calculate_laplace_transform_result m c k F0 omega max_freq n).poles,
      polyEval2 m c k p = (0, 0)) ∧
    (calculate_laplace_transform_result m c k F0 omega max_freq n).zeros = [] := by
  have hpoles : (calculate_laplace_transform_result m c k F0 omega max_freq n).poles =
      rootsQuadratic m c k := by
    simp [calculate_laplace_transform_result, np_roots_cubic_of_ne m c k hm.ne']
  refine ⟨rfl, ?_, ?_, ?_⟩
  · rw [hpoles, rootsQuadratic_length]
  · rw [hpoles]
    exact rootsQuadratic_are_roots m c k hm.ne'
  · simp [calculate_laplace_transform_result, np_roots]

/-- Claim C4, witness at (m, c, k) = (1, 2, 10). -/
theorem C4_two_poles_no_zeros_witness :
    ((0 : ℝ) < 1) ∧ ((0 : ℝ) ≤ 2) ∧ ((0 : ℝ) < 10) ∧
    (calculate_laplace_transform_result 1 2 10 1 1 100 2).poles.length = 2 :=
  ⟨by norm_num, by norm_num, by norm_num,
   (C4_two_poles_no_zeros 1 2 10 1 1 100 2 (by norm_num) (by norm_num)
      (by norm_num)).2.1⟩

/-- Claim C7, counterexample: for the pole real-part list [0, 1], which
contains a strictly positive entry, the classification in app.py yields
MARGINALLY STABLE, not UNSTABLE as the claim requires, because the zero
check is tested before any positivity consideration. -/
theorem C7_counterexample :
    (∃ r ∈ [(0 : ℝ), 1], 0 < r) ∧
    system_status [(0 : ℝ), 1] = Stability.MARGINALLY_STABLE ∧
    system_status [(0 : ℝ), 1] ≠ Stability.UNSTABLE := by
  have hm : system_status [(0 : ℝ), 1] = Stability.MARGINALLY_STABLE := by
    rw [system_status_marginal_iff]
    constructor
    · intro h
      exact lt_irrefl (0 : ℝ) (h 0 (by simp))
    · exact ⟨0, by simp, rfl⟩
  refine ⟨⟨1, by simp, one_pos⟩, hm, ?_⟩
  rw [hm]
  simp

/-- Claim C7, amended: the classification in app.py satisfies STABLE exactly
when all pole real parts are strictly negative; MARGINALLY STABLE exactly
when not all are negative and some real part equals zero, even if another
real part is strictly positive; UNSTABLE exactly when not all are negative
and no real part equals zero. -/
theorem C7_classification_characterization (l : List ℝ) :
    (system_status l = Stability.STABLE ↔ ∀ r ∈ l, r < 0) ∧
    (system_status l = Stability.MARGINALLY_STABLE ↔
      (¬ ∀ r ∈ l, r < 0) ∧ (∃ r ∈ l, r = 0)) ∧
    (system_status l = Stability.UNSTABLE ↔
      (¬ ∀ r ∈ l, r < 0) ∧ (¬ ∃ r ∈ l, r = 0)) :=
  ⟨system_status_stable_iff l, system_status_marginal_iff l,
   system_status_unstable_iff l⟩

theorem np_logspace_length (a b : ℝ) (n : ℕ) : (np_logspace a b n).length = n := by
  rw [np_logspace, List.length_map, np_linspaceR, List.length_map, List.length_range]

theorem np_logspace_getElem (a b : ℝ) (n i : ℕ) (h : i < (np_logspace a b n).length) :
    (np_logspace a b n)[i] = (10 : ℝ) ^ (a + (i : ℝ) * (b - a) / ((n : ℝ) - 1)) := by
  simp [np_logspace, np_linspaceR]

theorem np_logspace_pairwise (a b : ℝ) (n : ℕ) (hab : a < b) (hn : 2 ≤ n) :
    (np_logspace a b n).Pairwise (· < ·) := by
  unfold np_logspace np_linspaceR
  rw [List.map_map, List.pairwise_map]
  refine (List.pairwise_lt_range n).imp ?_
  intro i j hij
  simp only [Function.comp]
  rw [Real.rpow_lt_rpow_left_iff (by norm_num : (1 : ℝ) < 10)]
  have hden : (0 : ℝ) < (n : ℝ) - 1 := by
    have h2 : (2 : ℝ) ≤ (n : ℝ) := by exact_mod_cast hn
    linarith
  have hcast : (i : ℝ) < (j : ℝ) := by exact_mod_cast hij
  have hba : (0 : ℝ) < b - a := by linarith
  have key : (i : ℝ) * (b - a) / ((n : ℝ) - 1) < (j : ℝ) * (b - a) / ((n : ℝ) - 1) := by
    gcongr
  linarith

theorem rpow_ten_neg_two : ((10 : ℝ) ^ ((-2 : ℝ))) = 1 / 100 := by
  norm_num

theorem logb_ten_hundredth : Real.logb 10 ((1 : ℝ) / 100) = -2 := by
  rw [← rpow_ten_neg_two, Real.logb_rpow (by norm_num) (by norm_num)]

theorem np_logspace_not_pairwise_of_lt (a b : ℝ) (hab : b < a) :
    ¬ (np_logspace a b 2).Pairwise (· < ·) := by
  intro hp
  rw [List.pairwise_iff_getElem] at hp
  have hlen : (np_logspace a b 2).length = 2 := np_logspace_length a b 2
  have h0 : (0 : ℕ) < (np_logspace a b 2).length := by
    rw [hlen]
    omega
  have h1 : (1 : ℕ) < (np_logspace a b 2).length := by
    rw [hlen]
    omega
  have h01 := hp 0 1 h0 h1 (by omega)
  rw [np_logspace_getElem a b 2 0 h0, np_logspace_getElem a b 2 1 h1] at h01
  rw [Real.rpow_lt_rpow_left_iff (by norm_num : (1 : ℝ) < 10)] at h01
  norm_num at h01
  linarith

/-- Claim C6, counterexample: for max_freq = 1/1000 (which is positive) and
num_points = 2 the frequency array produced by analyze is
[10^(-2), 10^(log10(1/1000))] = [1/100, 1/1000], which is strictly
decreasing, refuting the claimed strict ascent for every positive max_freq:
np.logspace always starts at 10^(-2) and a sweep target below 0.01 descends. -/
theorem C6_counterexample :
    ((0 : ℝ) < 1 / 1000) ∧
    ¬ (calculate_laplace_transform_result 1 1 1 1 1 (1 / 1000) 2).frequencies.Pairwise
        (· < ·) := by
  have hfreq : (calculate_laplace_transform_result 1 1 1 1 1 (1 / 1000) 2).frequencies =
      np_logspace (-2) (Real.logb 10 ((1 : ℝ) / 1000)) 2 := by
    simp [calculate_laplace_transform_result]
  refine ⟨by norm_num, ?_⟩
  rw [hfreq]
  apply np_logspace_not_pairwise_of_lt
  have hlt := Real.logb_lt_logb (by norm_num : (1 : ℝ) < 10)
    (by norm_num : (0 : ℝ) < 1 / 1000) (by norm_num : (1 : ℝ) / 1000 < 1 / 100)
  rwa [logb_ten_hundredth] at hlt

/-- Claim C6, amended: for max_freq strictly greater than 0.01 (the fixed
sweep start 10^(-2)) and num_points at least 2, the frequency array of
analyze has length num_points, is strictly increasing, log-uniformly spaced
(each entry is the previous one multiplied by the fixed ratio
10^((log10(max_freq) + 2)/(num_points - 1))), starts at 0.01 and ends at
max_freq.  For 0 < max_freq at most 0.01 the sweep is constant or
descending, so the bound 0.01 < max_freq is necessary. -/
theorem C6_frequency_sweep (m c k F0 omega max_freq : ℝ) (n : ℕ)
    (hmf : 1 / 100 < max_freq) (hn : 2 ≤ n) :
    (calculate_laplace_transform_result m c k F0 omega max_freq n).frequencies =
      np_logspace (-2) (Real.logb 10 max_freq) n ∧
    (np_logspace (-2) (Real.logb 10 max_freq) n).length = n ∧
    (np_logspace (-2) (Real.logb 10 max_freq) n).Pairwise (· < ·) ∧
    (∀ h0 : 0 < (np_logspace (-2) (Real.logb 10 max_freq) n).length,
      (np_logspace (-2) (Real.logb 10 max_freq) n)[0] = 1 / 100) ∧
    (∀ hl : n - 1 < (np_logspace (-2) (Real.logb 10 max_freq) n).length,
      (np_logspace (-2) (Real.logb 10 max_freq) n)[n - 1] = max_freq) ∧
    (∀ (i : ℕ) (hi : i + 1 < (np_logspace (-2) (Real.logb 10 max_freq) n).length),
      (np_logspace (-2) (Real.logb 10 max_freq) n).get ⟨i + 1, hi⟩ =
        (np_logspace (-2) (Real.logb 10 max_freq) n).get ⟨i, Nat.lt_of_succ_lt hi⟩ *
          (10 : ℝ) ^ ((Real.logb 10 max_freq + 2) / ((n : ℝ) - 1))) := by
  have hmf0 : (0 : ℝ) < max_freq := lt_trans (by norm_num) hmf
  have hb : (-2 : ℝ) < Real.logb 10 max_freq := by
    have hlt := Real.logb_lt_logb (by norm_num : (1 : ℝ) < 10)
      (by norm_num : (0 : ℝ) < 1 / 100) hmf
    rwa [logb_ten_hundredth] at hlt
  have hden : ((n : ℝ) - 1) ≠ 0 := by
    have h2 : (2 : ℝ) ≤ (n : ℝ) := by exact_mod_cast hn
    linarith
  refine ⟨by simp [calculate_laplace_transform_result], np_logspace_length _ _ _,
    np_logspace_pairwise _ _ _ hb hn, ?_, ?_, ?_⟩
  · intro h0
    rw [np_logspace_getElem]
    norm_num
  · intro hl
    rw [np_logspace_getElem]
    have hcast : ((n - 1 : ℕ) : ℝ) = (n : ℝ) - 1 := by
      have h1 : 1 ≤ n := by omega
      push_cast [Nat.cast_sub h1]
      ring
    rw [hcast]
    have he : (-2 : ℝ) + ((n : ℝ) - 1) * (Real.logb 10 max_freq - -2) / ((n : ℝ) - 1) =
        Real.logb 10 max_freq := by
      field_simp
    rw [he, Real.rpow_logb (by norm_num) (by norm_num) hmf0]
  · intro i hi
    rw [List.get_eq_getElem, List.get_eq_getElem, np_logspace_getElem, np_logspace_getElem]
    rw [← Real.rpow_add (by norm_num : (0 : ℝ) < 10)]
    congr 1
    push_cast
    field_simp
    ring

/-- Claim C6, amended, witness at max_freq = 100, num_points = 2. -/
theorem C6_frequency_sweep_witness :
    ((1 : ℝ) / 100 < 100) ∧ (2 ≤ 2) ∧
    (np_logspace (-2) (Real.logb 10 100) 2).Pairwise (· < ·) :=
  ⟨by norm_num, le_refl 2,
   (C6_frequency_sweep 1 1 1 1 1 100 2 (by norm_num) (le_refl 2)).2.2.1⟩

theorem np_log10_zero : np_log10 0 = ⊥ := by
  unfold np_log10
  rw [if_neg (lt_irrefl 0)]

theorem np_log10_pos (x : ℝ) (h : 0 < x) :
    np_log10 x = ((Real.logb 10 x : ℝ) : EReal) := by
  unfold np_log10
  rw [if_pos h]

theorem magnitude_bot_of_zero_forcing (m c k omega max_freq : ℝ) (n : ℕ) :
    ∀ v ∈ (calculate_laplace_transform_result m c k 0 omega max_freq n).magnitude,
      v = ⊥ := by
  intro v hv
  simp only [calculate_laplace_transform_result, List.map_map, List.mem_map] at hv
  obtain ⟨w, hw, hvv⟩ := hv
  rw [← hvv]
  simp only [Function.comp]
  rw [show (0 : ℝ) * omega = 0 from zero_mul omega, np_log10_zero,
    EReal.mul_bot_of_pos (by norm_num : (0 : EReal) < 20), EReal.add_bot]

theorem magnitude_length (m c k F0 omega max_freq : ℝ) (n : ℕ) :
    (calculate_laplace_transform_result m c k F0 omega max_freq n).magnitude.length = n := by
  simp only [calculate_laplace_transform_result, List.length_map]
  exact np_logspace_length _ _ _

/-- Claim C5: the magnitude array returned by analyze is the homogeneous Bode
magnitude of H(s) = 1/(m s^2 + c s + k) with the constant 20 log10(F0 omega)
added uniformly to every frequency sample (for positive forcing amplitude the
shift is the finite real constant; in general it is the np.log10 value), and
the phase array is the homogeneous Bode phase, unchanged by the adjustment. -/
theorem C5_forced_magnitude_shift (m c k F0 omega max_freq : ℝ) (n : ℕ)
    (hF : 0 ≤ F0) (hw : 0 < omega) :
    (calculate_laplace_transform_result m c k F0 omega max_freq n).frequencies =
      np_logspace (-2) (Real.logb 10 max_freq) n ∧
    (calculate_laplace_transform_result m c k F0 omega max_freq n).phase =
      (np_logspace (-2) (Real.logb 10 max_freq) n).map (fun w => bodePhase m c k w) ∧
    (calculate_laplace_transform_result m c k F0 omega max_freq n).magnitude =
      (np_logspace (-2) (Real.logb 10 max_freq) n).map
        (fun w => (bodeMagnitude m c k w : EReal) + (20 : EReal) * np_log10 (F0 * omega)) ∧
    (0 < F0 →
      (calculate_laplace_transform_result m c k F0 omega max_freq n).magnitude =
        (np_logspace (-2) (Real.logb 10 max_freq) n).map
          (fun w => ((bodeMagnitude m c k w + 20 * Real.logb 10 (F0 * omega) : ℝ) : EReal))) := by
  refine ⟨by simp [calculate_laplace_transform_result],
    by simp [calculate_laplace_transform_result], ?_, ?_⟩
  · simp [calculate_laplace_transform_result, List.map_map, Function.comp]
  · intro hF0
    have hpos : 0 < F0 * omega := mul_pos hF0 hw
    simp only [calculate_laplace_transform_result, List.map_map]
    refine List.map_congr_left ?_
    intro w hw2
    simp only [Function.comp]
    rw [np_log10_pos (F0 * omega) hpos]
    norm_cast

/-- Claim C5, witness at (m, c, k, F0, omega) = (1, 1, 1, 1, 1). -/
theorem C5_forced_magnitude_shift_witness :
    ((0 : ℝ) ≤ 1) ∧ ((0 : ℝ) < 1) ∧
    (calculate_laplace_transform_result 1 1 1 1 1 100 2).phase =
      (np_logspace (-2) (Real.logb 10 100) 2).map (fun w => bodePhase 1 1 1 w) :=
  ⟨by norm_num, by norm_num,
   (C5_forced_magnitude_shift 1 1 1 1 1 100 2 (by norm_num) (by norm_num)).2.1⟩

/-- Claim C8, counterexample: at forcing amplitude F0 = 0 (a valid input,
since the data model only requires F0 non-negative), analyze does not signal
any error: it returns Except.ok, and the returned magnitude array contains
the non-finite value -infinity (np.log10(0)), at the concrete input
(m, c, k, F0, omega, max_freq, num_points) = (1, 1, 1, 0, 1, 100, 2). -/
theorem C8_counterexample :
    calculate_laplace_transform 1 1 1 0 1 100 2 =
      Except.ok (calculate_laplace_transform_result 1 1 1 0 1 100 2) ∧
    ∃ v ∈ (calculate_laplace_transform_result 1 1 1 0 1 100 2).magnitude, v = ⊥ := by
  refine ⟨rfl, ?_⟩
  have hlen : (calculate_laplace_transform_result 1 1 1 0 1 100 2).magnitude.length = 2 :=
    magnitude_length 1 1 1 0 1 100 2
  have h0 : 0 < (calculate_laplace_transform_result 1 1 1 0 1 100 2).magnitude.length := by
    rw [hlen]
    omega
  refine ⟨(calculate_laplace_transform_result 1 1 1 0 1 100 2).magnitude[0], ?_, ?_⟩
  · exact List.getElem_mem h0
  · exact magnitude_bot_of_zero_forcing 1 1 1 1 100 2 _ (List.getElem_mem h0)

/-- Claim C8, amended: for F0 = 0 neither validation nor any error signal
occurs: analyze returns Except.ok and every entry of the returned magnitude
array is the non-finite value -infinity, because the uniform shift
20 times np.log10(0 times omega) is -infinity.  The claimed explicit error
for non-finite output does not exist in the code. -/
theorem C8_zero_amplitude_silent_bot (m c k omega max_freq : ℝ) (n : ℕ) :
    calculate_laplace_transform m c k 0 omega max_freq n =
      Except.ok (calculate_laplace_transform_result m c k 0 omega max_freq n) ∧
    ∀ v ∈ (calculate_laplace_transform_result m c k 0 omega max_freq n).magnitude,
      v = ⊥ :=
  ⟨rfl, magnitude_bot_of_zero_forcing m c k omega max_freq n⟩

/-- Claim C9: both operations are deterministic pure functions of their
argument tuples: two calls with componentwise identical arguments (and, for
solve, the same external integrator) produce identical results, so external
memoization keyed by the input tuple is safe.  Purity holds structurally:
neither embedded function reads any state beyond its arguments, mirroring
the absence of global mutable state in the two source modules. -/
theorem C9_idempotence (ivp : IVPSolver)
    (a1 a2 : ℚ × ℚ × ℚ × ℚ × ℚ × ℚ × ℚ × ℚ) (n1 n2 : ℕ)
    (b1 b2 : ℝ × ℝ × ℝ × ℝ × ℝ × ℝ) (k1 k2 : ℕ)
    (ha : a1 = a2) (hn : n1 = n2) (hb : b1 = b2) (hk : k1 = k2) :
    solve_damped_oscillator ivp a1.1 a1.2.1 a1.2.2.1 a1.2.2.2.1 a1.2.2.2.2.1
        a1.2.2.2.2.2.1 a1.2.2.2.2.2.2.1 a1.2.2.2.2.2.2.2 n1 =
      solve_damped_oscillator ivp a2.1 a2.2.1 a2.2.2.1 a2.2.2.2.1 a2.2.2.2.2.1
        a2.2.2.2.2.2.1 a2.2.2.2.2.2.2.1 a2.2.2.2.2.2.2.2 n2 ∧
    calculate_laplace_transform b1.1 b1.2.1 b1.2.2.1 b1.2.2.2.1 b1.2.2.2.2.1
        b1.2.2.2.2.2 k1 =
      calculate_laplace_transform b2.1 b2.2.1 b2.2.2.1 b2.2.2.2.1 b2.2.2.2.2.1
        b2.2.2.2.2.2 k2 := by
  subst ha
  subst hn
  subst hb
  subst hk
  exact ⟨rfl, rfl⟩

/-- Claim C9, witness: the two calls coincide at a concrete repeated tuple. -/
theorem C9_idempotence_witness :
    calculate_laplace_transform 1 2 10 1 1 100 2 =
      calculate_laplace_transform 1 2 10 1 1 100 2 :=
  (C9_idempotence trivialIVP (1, 1, 1, 1, 1, 1, 0, 1) (1, 1, 1, 1, 1, 1, 0, 1) 5 5
    (1, 2, 10, 1, 1, 100) (1, 2, 10, 1, 1, 100) 2 2 rfl rfl rfl rfl).2

theorem rootsQuadratic_map_fst_over (m c k : ℝ) (hd : 0 ≤ c ^ 2 - 4 * m * k) :
    (rootsQuadratic m c k).map Prod.fst =
      [(-c + Real.sqrt (c ^ 2 - 4 * m * k)) / (2 * m),
       (-c - Real.sqrt (c ^ 2 - 4 * m * k)) / (2 * m)] := by
  unfold rootsQuadratic
  rw [if_pos hd]
  rfl

theorem rootsQuadratic_map_fst_under (m c k : ℝ) (hd : ¬ 0 ≤ c ^ 2 - 4 * m * k) :
    (rootsQuadratic m c k).map Prod.fst = [-c / (2 * m), -c / (2 * m)] := by
  unfold rootsQuadratic
  rw [if_neg hd]
  rfl

theorem sqrt_disc_lt (m c k : ℝ) (hm : 0 < m) (hc : 0 ≤ c) (hk : 0 < k)
    (hd : 0 ≤ c ^ 2 - 4 * m * k) : Real.sqrt (c ^ 2 - 4 * m * k) < c := by
  have h1 : c ^ 2 - 4 * m * k < c ^ 2 := by nlinarith
  have h2 := Real.sqrt_lt_sqrt hd h1
  rwa [Real.sqrt_sq hc] at h2

theorem rootsQuadratic_status (m c k : ℝ) (hm : 0 < m) (hc : 0 ≤ c) (hk : 0 < k) :
    (0 < c → system_status ((rootsQuadratic m c k).map Prod.fst) = Stability.STABLE) ∧
    (c = 0 → system_status ((rootsQuadratic m c k).map Prod.fst) =
      Stability.MARGINALLY_STABLE) := by
  constructor
  · intro hcpos
    rw [system_status_stable_iff]
    by_cases hd : 0 ≤ c ^ 2 - 4 * m * k
    · rw [rootsQuadratic_map_fst_over m c k hd]
      have hs0 : 0 ≤ Real.sqrt (c ^ 2 - 4 * m * k) := Real.sqrt_nonneg _
      have hslt := sqrt_disc_lt m c k hm hc hk hd
      intro r hr
      simp only [List.mem_cons, List.not_mem_nil, or_false] at hr
      rcases hr with rfl | rfl
      · exact div_neg_of_neg_of_pos (by linarith) (by linarith)
      · exact div_neg_of_neg_of_pos (by linarith) (by linarith)
    · rw [rootsQuadratic_map_fst_under m c k hd]
      intro r hr
      simp only [List.mem_cons, List.not_mem_nil, or_false] at hr
      rcases hr with rfl | rfl
      · exact div_neg_of_neg_of_pos (by linarith) (by linarith)
      · exact div_neg_of_neg_of_pos (by linarith) (by linarith)
  · intro hczero
    subst hczero
    have hd : ¬ (0 : ℝ) ≤ 0 ^ 2 - 4 * m * k := by
      push_neg
      nlinarith
    rw [system_status_marginal_iff, rootsQuadratic_map_fst_under m 0 k hd]
    have hx : (-0 : ℝ) / (2 * m) = 0 := by norm_num
    rw [hx]
    refine ⟨fun hall => absurd (hall 0 (by simp)) (lt_irrefl 0), ⟨0, by simp, rfl⟩⟩

theorem rootsQuadratic_fst_nonpos (m c k : ℝ) (hm : 0 < m) (hc : 0 ≤ c) (hk : 0 < k) :
    ∀ p ∈ rootsQuadratic m c k, p.1 ≤ 0 := by
  intro p hp
  unfold rootsQuadratic at hp
  split_ifs at hp with hd
  · have hs0 : 0 ≤ Real.sqrt (c ^ 2 - 4 * m * k) := Real.sqrt_nonneg _
    have hslt := sqrt_disc_lt m c k hm hc hk hd
    simp only [List.mem_cons, List.not_mem_nil, or_false] at hp
    rcases hp with rfl | rfl
    · exact le_of_lt (div_neg_of_neg_of_pos (by linarith) (by linarith))
    · exact le_of_lt (div_neg_of_neg_of_pos (by linarith) (by linarith))
  · simp only [List.mem_cons, List.not_mem_nil, or_false] at hp
    have hle : -c / (2 * m) ≤ 0 :=
      div_nonpos_of_nonpos_of_nonneg (by linarith) (by linarith)
    rcases hp with rfl | rfl
    · exact hle
    · exact hle

theorem rootsQuadratic_fst_under_eq (m c k : ℝ) (hd : ¬ 0 ≤ c ^ 2 - 4 * m * k) :
    ∀ p ∈ rootsQuadratic m c k, p.1 = -c / (2 * m) := by
  intro p hp
  unfold rootsQuadratic at hp
  rw [if_neg hd] at hp
  simp only [List.mem_cons, List.not_mem_nil, or_false] at hp
  rcases hp with rfl | rfl <;> rfl

/-- Claim C10, counterexample: in the overdamped case (m, c, k) = (1, 3, 2)
the discriminant is 9 - 8 = 1, the poles are real and distinct (-1 and -2),
and the first pole real part -1 differs from -c/(2m) = -3/2, refuting the
claimed formula for every pole real part (it only holds for complex poles). -/
theorem C10_counterexample :
    ((0 : ℝ) < 1) ∧ ((0 : ℝ) ≤ 3) ∧ ((0 : ℝ) < 2) ∧
    ∃ p ∈ (calculate_laplace_transform_result 1 3 2 1 1 100 2).poles,
      p.1 ≠ -3 / (2 * 1) := by
  have hpoles : (calculate_laplace_transform_result 1 3 2 1 1 100 2).poles =
      rootsQuadratic 1 3 2 := by
    simp [calculate_laplace_transform_result, np_roots_cubic_of_ne 1 3 2 one_ne_zero]
  refine ⟨by norm_num, by norm_num, by norm_num, ?_⟩
  rw [hpoles]
  unfold rootsQuadratic
  rw [if_pos (by norm_num : (0 : ℝ) ≤ 3 ^ 2 - 4 * 1 * 2)]
  refine ⟨_, List.mem_cons_self _ _, ?_⟩
  rw [show ((3 : ℝ) ^ 2 - 4 * 1 * 2) = 1 from by norm_num, Real.sqrt_one]
  norm_num

/-- Claim C10, amended: for m > 0, c at least 0, k > 0 every pole returned by
analyze has non-positive real part (equal to -c/(2m) exactly when the
discriminant is negative, i.e. c^2 < 4mk); consequently the derived
classification is never UNSTABLE, and it is MARGINALLY STABLE exactly when
c = 0.  In the overdamped regime the two real parts are distinct, so the
claimed identity real part = -c/(2m) holds only under c^2 < 4mk. -/
theorem C10_poles_never_unstable (m c k F0 omega max_freq : ℝ) (n : ℕ)
    (hm : 0 < m) (hc : 0 ≤ c) (hk : 0 < k) :
    (∀ p ∈ (calculate_laplace_transform_result m c k F0 omega max_freq n).poles,
      p.1 ≤ 0) ∧
    (c ^ 2 < 4 * m * k →
      ∀ p ∈ (calculate_laplace_transform_result m c k F0 omega max_freq n).poles,
        p.1 = -c / (2 * m)) ∧
    system_status
        (((calculate_laplace_transform_result m c k F0 omega max_freq n).poles).map
          Prod.fst) ≠ Stability.UNSTABLE ∧
    (system_status
        (((calculate_laplace_transform_result m c k F0 omega max_freq n).poles).map
          Prod.fst) = Stability.MARGINALLY_STABLE ↔ c = 0) := by
  have hpoles : (calculate_laplace_transform_result m c k F0 omega max_freq n).poles =
      rootsQuadratic m c k := by
    simp [calculate_laplace_transform_result, np_roots_cubic_of_ne m c k hm.ne']
  rw [hpoles]
  obtain ⟨hstable, hmarg⟩ := rootsQuadratic_status m c k hm hc hk
  refine ⟨rootsQuadratic_fst_nonpos m c k hm hc hk, ?_, ?_, ?_⟩
  · intro hlt
    have hd : ¬ 0 ≤ c ^ 2 - 4 * m * k := by
      push_neg
      linarith
    exact rootsQuadratic_fst_under_eq m c k hd
  · rcases lt_or_eq_of_le hc with hcpos | hczero
    · rw [hstable hcpos]
      simp
    · rw [hmarg hczero.symm]
      simp
  · rcases lt_or_eq_of_le hc with hcpos | hczero
    · rw [hstable hcpos]
      exact iff_of_false (by simp) (fun h => (ne_of_gt hcpos) h)
    · exact iff_of_true (hmarg hczero.symm) hczero.symm

/-- Claim C10, amended, witness at (m, c, k) = (1, 2, 10), the underdamped
stable configuration. -/
theorem C10_poles_never_unstable_witness :
    ((0 : ℝ) < 1) ∧ ((0 : ℝ) ≤ 2) ∧ ((0 : ℝ) < 10) ∧
    system_status
        (((calculate_laplace_transform_result 1 2 10 1 1 100 2).poles).map
          Prod.fst) ≠ Stability.UNSTABLE :=
  ⟨by norm_num, by norm_num, by norm_num,
   (C10_poles_never_unstable 1 2 10 1 1 100 2 (by norm_num) (by norm_num)
      (by norm_num)).2.2.1⟩
